import Mathlib

/-!
# Verification of the OAuth2 credential secret-lifecycle manager

A shallow embedding of the secret-lifecycle core of this repository:
credential value objects, the process-wide Secret Vault, credential-key
derivation, the Credential Manager's redact-on-ingest step, the
restore/use/re-redact protocol around URI generation and token exchange,
and the `generate_agent_card` CLI loop.

Only the tests and the CLI module of this repository ship under `src/`;
the `google.adk.auth` modules they exercise (`credential_manager.py`,
`auth_handler.py`, `auth_tool.py`, `auth_credential.py`) are not present.
Those components are therefore modelled from the specification, as marked
on each definition; the CLI loop is embedded directly from
`src/src/google/adk/cli/cli_generate_agent_card.py`.
-/

namespace AdkAuth

/-- The fixed redaction marker sentinel, `"<redacted>"`. -/
def REDACTED : String := "<redacted>"

/-- Credential kinds of `AuthCredentialTypes` (`auth_credential.py`); only
`oauth2` matters for this core, the others stand for the remaining enum
members. -/
inductive AuthCredentialTypes where
  | apiKey
  | http
  | oauth2
  | openIdConnect
  | serviceAccount
deriving DecidableEq

/-- The OAuth2 payload of a credential (`OAuth2Auth` in
`auth_credential.py`): client id, client secret, endpoints and tokens, all
optional strings. -/
structure OAuth2Auth where
  client_id : Option String
  client_secret : Option String
  auth_uri : Option String
  state : Option String
  redirect_uri : Option String
  auth_code : Option String
  access_token : Option String
  refresh_token : Option String
deriving DecidableEq

/-- An `AuthCredential`: a kind tag plus the OAuth2 payload when the kind
is OAuth2 (the other kinds carry no payload relevant to this core). -/
structure AuthCredential where
  auth_type : AuthCredentialTypes
  oauth2 : Option OAuth2Auth
deriving DecidableEq

/-- One OAuth2 flow variant of a scheme (`OAuthFlowAuthorizationCode`
etc.): endpoint URLs and a scope map (scope name, description). -/
structure OAuthFlow where
  authorizationUrl : Option String
  tokenUrl : Option String
  scopes : List (String × String)
deriving DecidableEq

/-- The four optional flow variants of an OAuth2 scheme (`OAuthFlows`). -/
structure OAuthFlows where
  implicit : Option OAuthFlow
  password : Option OAuthFlow
  clientCredentials : Option OAuthFlow
  authorizationCode : Option OAuthFlow
deriving DecidableEq

/-- An `AuthScheme` restricted to OAuth2: the flow-type discriminator and
the flow variants. Immutable, supplied by the caller. -/
structure AuthScheme where
  schemeType : String
  flows : OAuthFlows
deriving DecidableEq

/-- `AuthConfig` (`auth_tool.py`): a scheme plus the optional raw
(pre-exchange) and exchanged (post-exchange) credentials. -/
structure AuthConfig where
  auth_scheme : AuthScheme
  raw_auth_credential : Option AuthCredential
  exchanged_auth_credential : Option AuthCredential
deriving DecidableEq

/-- The Secret Vault (`CredentialManager._CLIENT_SECRETS`): a mapping from
client id to plaintext secret, modelled as an association list in which
the most recent binding shadows older ones (matching dict overwrite). -/
abbrev Vault := List (String × String)

/-- Store/overwrite a secret under a client id. -/
def Vault.put (v : Vault) (cid s : String) : Vault := (cid, s) :: v

/-- Look up the secret for a client id; `none` is the normal
"no secret to restore" case, not an error. -/
def Vault.get (v : Vault) (cid : String) : Option String :=
  (v.find? (fun p => p.1 == cid)).map (fun p => p.2)

/-- Render of an optional string used inside derived keys, mirroring how
Python string-formats `None`. -/
def optStr : Option String → String
  | some s => s
  | none => "None"

/-- Modelled from the spec (§4.2 Key Derivation): the fixed placeholder
substituted for the secret value before the key is assembled. -/
def SECRET_PLACEHOLDER : String := "<secret-placeholder>"

/-- Stable identity of one flow variant: its canonical URLs. -/
def flowIdent : Option OAuthFlow → String
  | none => "-"
  | some f => optStr f.authorizationUrl ++ "," ++ optStr f.tokenUrl

/-- Modelled from the spec (§4.2): the scheme's stable identity, the flow
type together with the canonical URLs of its flow variants. -/
def schemeIdentity (s : AuthScheme) : String :=
  s.schemeType ++ ";" ++ flowIdent s.flows.implicit ++ ";"
    ++ flowIdent s.flows.password ++ ";" ++ flowIdent s.flows.clientCredentials
    ++ ";" ++ flowIdent s.flows.authorizationCode

/-- Modelled from the spec (§4.2): the credential's non-secret identity
fields (client id, auth_uri if present), with the secret field replaced by
the constant placeholder rather than its actual value. -/
def credIdentity : Option AuthCredential → String
  | none => "None"
  | some c =>
    optStr (c.oauth2.bind (fun o => o.client_id)) ++ "/"
      ++ optStr (c.oauth2.bind (fun o => o.auth_uri)) ++ "/"
      ++ SECRET_PLACEHOLDER

/-- Modelled from the spec (§4.2, missing `auth_tool.py`): the derived
`credential_key` of an `AuthConfig` — scheme identity concatenated with
the credential's non-secret identity, secret replaced by the placeholder. -/
def AuthConfig.credential_key (cfg : AuthConfig) : String :=
  "adk_" ++ schemeIdentity cfg.auth_scheme ++ "_"
    ++ credIdentity cfg.raw_auth_credential

/-- Replace the `client_secret` of a credential's OAuth2 payload (no-op
when there is no payload). -/
def setCredSecret (c : AuthCredential) (s? : Option String) : AuthCredential :=
  match c.oauth2 with
  | some o => { c with oauth2 := some { o with client_secret := s? } }
  | none => c

/-- Replace the `client_secret` carried by both credential slots of a
config, leaving every other field unchanged: the two configs of the key
stability property differ exactly by such a substitution. -/
def setConfigSecret (cfg : AuthConfig) (s? : Option String) : AuthConfig :=
  { cfg with
    raw_auth_credential := cfg.raw_auth_credential.map (fun c => setCredSecret c s?)
    exchanged_auth_credential :=
      cfg.exchanged_auth_credential.map (fun c => setCredSecret c s?) }

/-- Modelled from the spec (§4.3, missing `credential_manager.py`):
redact-on-ingest for one credential. If the credential is of OAuth2 kind
and carries a non-empty, non-marker `client_secret`, the secret is stored
in the vault under the client id (dropped when the client id is absent)
and the field is overwritten with the redaction marker; otherwise the
credential and the vault are untouched. -/
def ingestCredential (v : Vault) (c : AuthCredential) : Vault × AuthCredential :=
  if c.auth_type = AuthCredentialTypes.oauth2 then
    match c.oauth2 with
    | some o =>
      match o.client_secret with
      | some s =>
        if s ≠ "" ∧ s ≠ REDACTED then
          let v' := match o.client_id with
            | some cid => v.put cid s
            | none => v
          (v', { c with oauth2 := some { o with client_secret := some REDACTED } })
        else (v, c)
      | none => (v, c)
    | none => (v, c)
  else (v, c)

/-- Ingestion lifted to an optional credential slot. -/
def ingestOpt (v : Vault) : Option AuthCredential → Vault × Option AuthCredential
  | none => (v, none)
  | some c =>
    let p := ingestCredential v c
    (p.1, some p.2)

/-- The Credential Manager's state: its private sanitized copy of the
config and the Secret Vault (`_CLIENT_SECRETS`). -/
structure CredentialManager where
  auth_config : AuthConfig
  CLIENT_SECRETS : Vault
deriving DecidableEq

/-- Modelled from the spec (§4.3): `CredentialManager.__init__` — the raw
credential and then, independently, the exchanged credential of the
(deep-copied) config are ingested, and the sanitized config is retained
together with the updated vault. Construction is total: no error path. -/
def CredentialManager.construct (v : Vault) (cfg : AuthConfig) : CredentialManager :=
  let pr := ingestOpt v cfg.raw_auth_credential
  let pe := ingestOpt pr.1 cfg.exchanged_auth_credential
  { auth_config :=
      { cfg with raw_auth_credential := pr.2, exchanged_auth_credential := pe.2 }
    CLIENT_SECRETS := pe.1 }

/-- The vault entry `(client_id, secret)` that ingesting a credential
stores, when any: exactly when the credential is of OAuth2 kind with a
non-empty, non-marker secret and a present client id. -/
def ingestEntry (c : AuthCredential) : Option (String × String) :=
  if c.auth_type = AuthCredentialTypes.oauth2 then
    match c.oauth2 with
    | some o =>
      match o.client_secret with
      | some s =>
        if s ≠ "" ∧ s ≠ REDACTED then
          match o.client_id with
          | some cid => some (cid, s)
          | none => none
        else none
      | none => none
    | none => none
  else none

/-- Modelled from the spec (§4.4 step 2): restore — when the credential's
client id has a vault entry, produce a working copy with `client_secret`
set to the stored plaintext; on a vault miss (or absent client id or
absent payload) the credential is returned untouched. -/
def restoreCredential (v : Vault) (c : AuthCredential) : AuthCredential :=
  match c.oauth2 with
  | some o =>
    match o.client_id with
    | some cid =>
      match v.get cid with
      | some s => { c with oauth2 := some { o with client_secret := some s } }
      | none => c
    | none => c
  | none => c

/-- Modelled from the spec (§4.4 step 4): re-redaction — unconditionally
overwrite the `client_secret` field of the OAuth2 payload with the
redaction marker (no payload, nothing to overwrite). -/
def reredact (c : AuthCredential) : AuthCredential :=
  match c.oauth2 with
  | some o => { c with oauth2 := some { o with client_secret := some REDACTED } }
  | none => c

/-- A credential whose `client_secret` field (when it exists) holds the
redaction marker: the observability invariant of the protocol. -/
def secretRedacted (c : AuthCredential) : Bool :=
  match c.oauth2 with
  | some o => o.client_secret == some REDACTED
  | none => true

/-- Modelled from the spec (§4.4, missing `credential_manager.py`): the
restore/use/re-redact protocol around an operation. The operation models
`Exchanger.exchange`: it returns the (possibly new or mutated) credential
together with `some err` when it raises — in that case the credential
component is whatever partial object existed when the error escaped. The
error is propagated unchanged and re-redaction runs on every exit path. -/
def runProtocol (v : Vault) (cred : AuthCredential)
    (op : AuthCredential → Option String × AuthCredential) :
    Option String × AuthCredential :=
  let working := restoreCredential v cred
  let r := op working
  (r.1, reredact r.2)

/-- An exchanger that, like the mock of the secret-restoration tests,
asserts that the secret it receives equals `expected` (raising otherwise)
and returns the fixed credential `ret`. -/
def checkingExchanger (expected : String) (ret : AuthCredential)
    (c : AuthCredential) : Option String × AuthCredential :=
  match c.oauth2 with
  | some o =>
    if o.client_secret = some expected then (none, ret)
    else (some "AssertionError", c)
  | none => (some "AssertionError", c)

/-- Scope map of the populated flow variant of a scheme (§4.5: the scope
set is derived from whichever flow variant is populated; only one is
expected to be populated). -/
def selectedScopes (f : OAuthFlows) : List (String × String) :=
  match f.implicit with
  | some fl => fl.scopes
  | none =>
    match f.clientCredentials with
    | some fl => fl.scopes
    | none =>
      match f.password with
      | some fl => fl.scopes
      | none =>
        match f.authorizationCode with
        | some fl => fl.scopes
        | none => []

/-- The space-joined scope string handed to the OAuth2 session primitive. -/
def scopeString (f : OAuthFlows) : String :=
  String.intercalate " " ((selectedScopes f).map Prod.fst)

/-- The argument tuple of one invocation of the external OAuth2 session
primitive, `OAuth2Session(client_id, client_secret, scope, redirect_uri)`. -/
structure SessionCall where
  client_id : Option String
  client_secret : Option String
  scope : String
  redirect_uri : Option String
deriving DecidableEq

/-- Modelled from the spec (§4.5, missing `auth_handler.py`): the argument
tuple `AuthHandler.generate_auth_uri` passes to the session primitive —
the working copy's (restored) client secret together with its client id,
the scheme's scopes and the credential's redirect_uri. `none` when the
config carries no raw OAuth2 credential. -/
def authUriSessionCall (v : Vault) (cfg : AuthConfig) : Option SessionCall :=
  match cfg.raw_auth_credential with
  | none => none
  | some cred =>
    match (restoreCredential v cred).oauth2 with
    | none => none
    | some o =>
      some ⟨o.client_id, o.client_secret, scopeString cfg.auth_scheme.flows,
        o.redirect_uri⟩

/-- Modelled from the spec (§4.5): `AuthHandler.generate_auth_uri` —
restore the secret into a working copy, invoke the session primitive
(given as a function from the argument tuple to `(auth_uri, state)`),
record the produced URI and state on the credential, discard the working
secret by re-redacting, and return the URI with the sanitized credential. -/
def generateAuthUri (session : SessionCall → String × String) (v : Vault)
    (cfg : AuthConfig) : Option (String × AuthCredential) :=
  match cfg.raw_auth_credential with
  | none => none
  | some cred =>
    let working := restoreCredential v cred
    match working.oauth2 with
    | none => none
    | some o =>
      let r := session ⟨o.client_id, o.client_secret,
        scopeString cfg.auth_scheme.flows, o.redirect_uri⟩
      some (r.1, reredact { working with
        oauth2 := some { o with auth_uri := some r.1, state := some r.2 } })

/-- `listStartsWith n l` holds when `n` is an initial segment of `l`. -/
def listStartsWith : List Char → List Char → Bool
  | [], _ => true
  | _ :: _, [] => false
  | a :: as, b :: bs => a == b && listStartsWith as bs

/-- `listHasSeg n l` holds when `n` occurs contiguously inside `l`. -/
def listHasSeg (needle : List Char) : List Char → Bool
  | [] => needle.isEmpty
  | c :: t => listStartsWith needle (c :: t) || listHasSeg needle t

/-- `strContains hay needle`: the needle occurs as a substring of the hay
(used to state that a produced URI does not contain the plaintext secret). -/
def strContains (hay needle : String) : Bool :=
  listHasSeg needle.data hay.data

/-! ## Heap model for deep-copy isolation

Python-side mutability: credential objects live on a heap of numbered
cells and an `AuthConfig` holds references into it. `model_copy(deep=True)`
allocates fresh cells; in-place sanitization writes only to those fresh
cells. This is the model under which "the caller's original object is
unmodified" is a non-trivial statement. -/

/-- A heap of credential objects: an association list of allocated cells
(newest binding shadows older ones, as an in-place update) plus the next
fresh address. -/
structure Heap where
  cells : List (Nat × AuthCredential)
  next : Nat

/-- Read the credential object at a reference. -/
def Heap.read (h : Heap) (r : Nat) : Option AuthCredential :=
  (h.cells.find? (fun p => p.1 == r)).map (fun p => p.2)

/-- Overwrite the cell at a reference in place. -/
def Heap.write (h : Heap) (r : Nat) (c : AuthCredential) : Heap :=
  { h with cells := (r, c) :: h.cells }

/-- Allocate a fresh cell holding `c`; returns the new heap and the fresh
reference. -/
def Heap.alloc (h : Heap) (c : AuthCredential) : Heap × Nat :=
  ({ cells := (h.next, c) :: h.cells, next := h.next + 1 }, h.next)

/-- An `AuthConfig` as the caller holds it: references into the heap for
its two credential slots. -/
structure RefConfig where
  raw_ref : Option Nat
  exch_ref : Option Nat

/-- Modelled from the spec (§4.3 step 1): deep-copy one credential slot —
allocate a fresh cell with a copy of the referenced object — then ingest
(redact) the copy in place, leaving the original cell untouched. -/
def copyAndIngest (v : Vault) (h : Heap) : Option Nat → Vault × Heap × Option Nat
  | none => (v, h, none)
  | some r =>
    match h.read r with
    | none => (v, h, none)
    | some c =>
      let a := h.alloc c
      let p := ingestCredential v c
      (p.1, a.1.write a.2 p.2, some a.2)

/-- Modelled from the spec (§4.3): `CredentialManager.__init__` over the
heap model — deep-copy and sanitize both credential slots; the manager
retains references only to the fresh copies. -/
def constructManagerRef (v : Vault) (h : Heap) (cfg : RefConfig) :
    Vault × Heap × RefConfig :=
  let pr := copyAndIngest v h cfg.raw_ref
  let pe := copyAndIngest pr.1 pr.2.1 cfg.exch_ref
  (pe.1, pe.2.1, ⟨pr.2.2, pe.2.2⟩)

end AdkAuth

/-! ## The generate_agent_card CLI loop

Embedded from `src/src/google/adk/cli/cli_generate_agent_card.py`,
`_generate_agent_card_async` lines 68–99 (after the a2a import at the
top of the function has succeeded). -/

namespace AdkCli

/-- The stderr line printed when processing one agent raises (line 97 of
the source). -/
def errLine (name e : String) : String :=
  "Error processing agent " ++ name ++ ": " ++ e

/-- One iteration of the per-agent loop (lines 74–97). `buildCard` models
`load_agent` + `AgentCardBuilder.build` + `model_dump` for one agent name:
the rendered card dict on success, the exception message on failure.
`writeFile` models the `--create-file` write of `agent.json`, returning
`some e` when it raises. The card is appended before the file write, and
any exception is caught and reported on stderr; the accumulator is the
pair (cards so far, stderr lines so far). -/
def processAgent (buildCard : String → Except String String)
    (createFile : Bool) (writeFile : String → String → Option String)
    (acc : List String × List String) (name : String) :
    List String × List String :=
  match buildCard name with
  | Except.error e => (acc.1, acc.2 ++ [errLine name e])
  | Except.ok card =>
    let cards := acc.1 ++ [card]
    if createFile then
      match writeFile name card with
      | some e => (cards, acc.2 ++ [errLine name e])
      | none => (cards, acc.2)
    else (cards, acc.2)

/-- `json.dumps` of a list of already-rendered card dicts: a single JSON
array (line 99 of the source). -/
def jsonArray (cards : List String) : String :=
  "[" ++ String.intercalate ", " cards ++ "]"

/-- `_generate_agent_card_async` (lines 68–99): run the per-agent loop
over the discovered agent names and echo exactly one JSON array of the
collected cards to stdout; returns (stdout, stderr lines). -/
def generateAgentCardAsync (buildCard : String → Except String String)
    (createFile : Bool) (writeFile : String → String → Option String)
    (names : List String) : String × List String :=
  let p := names.foldl (processAgent buildCard createFile writeFile) ([], [])
  (jsonArray p.1, p.2)

end AdkCli

namespace AdkAuth

theorem credIdentity_setCredSecret (c : AuthCredential) (s? : Option String) :
    credIdentity (some (setCredSecret c s?)) = credIdentity (some c) := by
  cases h : c.oauth2 <;> simp [setCredSecret, credIdentity, h]

theorem schemeIdentity_setConfigSecret (cfg : AuthConfig) (s? : Option String) :
    (setConfigSecret cfg s?).auth_scheme = cfg.auth_scheme := rfl

/-- C1: for every pair of `AuthConfig` values identical except that one
carries the real `client_secret` and the other carries the redaction
marker in its place, the derived `credential_key` of the two configs is
equal. -/
theorem credential_key_stable_under_redaction (cfg : AuthConfig) (s : String) :
    (setConfigSecret cfg (some s)).credential_key
      = (setConfigSecret cfg (some REDACTED)).credential_key := by
  unfold AuthConfig.credential_key
  cases h : cfg.raw_auth_credential with
  | none => simp [setConfigSecret, h]
  | some c =>
      simp [setConfigSecret, h, credIdentity_setCredSecret]

theorem secretRedacted_reredact (c : AuthCredential) :
    secretRedacted (reredact c) = true := by
  cases h : c.oauth2 <;> simp [reredact, secretRedacted, h]

/-- C2: for every run of the restore/use/re-redact protocol — exchange or
URI generation — the credential observable by the caller after the
protocol completes has its `client_secret` field equal to the redaction
marker, regardless of what secret value the invoked operation placed or
left in the credential it returned. -/
theorem protocol_output_always_redacted (v : Vault) (cred : AuthCredential)
    (op : AuthCredential → Option String × AuthCredential)
    (session : SessionCall → String × String) (cfg : AuthConfig) :
    secretRedacted (runProtocol v cred op).2 = true ∧
    Option.all (fun r => secretRedacted r.2) (generateAuthUri session v cfg) = true := by
  constructor
  · simp [runProtocol, secretRedacted_reredact]
  · unfold generateAuthUri
    cases cfg.raw_auth_credential with
    | none => simp [Option.all]
    | some cred' =>
      cases h : (restoreCredential v cred').oauth2 with
      | none => simp [h, Option.all]
      | some o => simp [h, Option.all, secretRedacted_reredact]

/-- C7: when the exchanger raises during the restore/use/re-redact
protocol, the error is propagated to the caller unchanged (no retry, no
masking), and re-redaction still runs on whatever partial credential
exists before the error becomes observable. -/
theorem exchange_error_propagated_and_reredacted (v : Vault)
    (cred : AuthCredential)
    (op : AuthCredential → Option String × AuthCredential) :
    (runProtocol v cred op).1 = (op (restoreCredential v cred)).1 ∧
    (runProtocol v cred op).2 = reredact (op (restoreCredential v cred)).2 ∧
    secretRedacted (runProtocol v cred op).2 = true :=
  ⟨rfl, rfl, by simp [runProtocol, secretRedacted_reredact]⟩

/-- C4: when the Secret Vault has an entry for the credential's client id,
the operation is invoked with a working copy whose `client_secret` equals
the stored plaintext secret (not the redaction marker), and the protocol
around an exchanger asserting exactly that succeeds, with the returned
credential re-redacted. -/
theorem restore_supplies_plaintext_and_protocol_succeeds
    (v : Vault) (cred : AuthCredential) (o : OAuth2Auth) (cid s : String)
    (ret : AuthCredential)
    (ho : cred.oauth2 = some o) (hcid : o.client_id = some cid)
    (hv : v.get cid = some s) (hs : s ≠ REDACTED) :
    restoreCredential v cred
        = { cred with oauth2 := some { o with client_secret := some s } } ∧
    ((restoreCredential v cred).oauth2.bind fun o' => o'.client_secret) = some s ∧
    some s ≠ some REDACTED ∧
    runProtocol v cred (checkingExchanger s ret) = (none, reredact ret) := by
  have hrestore : restoreCredential v cred
      = { cred with oauth2 := some { o with client_secret := some s } } := by
    simp [restoreCredential, ho, hcid, hv]
  refine ⟨hrestore, ?_, by simpa using hs, ?_⟩
  · rw [hrestore]; rfl
  · unfold runProtocol
    rw [hrestore]
    simp [checkingExchanger]

/-- Concrete input of the restore-before-use theorem: a vault holding the
secret for `cid1` and a credential whose secret has been redacted. -/
def w4OAuth : OAuth2Auth :=
  ⟨some "cid1", some REDACTED, none, none, none, some "some_code", none, none⟩

def w4Cred : AuthCredential := ⟨AuthCredentialTypes.oauth2, some w4OAuth⟩

def w4Ret : AuthCredential :=
  ⟨AuthCredentialTypes.oauth2,
    some ⟨some "cid1", some "s3cr3t", none, none, none, none, some "tok", none⟩⟩

/-- Witness for C4 at a concrete vault, credential and exchanger. -/
theorem restore_supplies_plaintext_and_protocol_succeeds_witness :
    restoreCredential [("cid1", "s3cr3t")] w4Cred
        = { w4Cred with oauth2 := some { w4OAuth with client_secret := some "s3cr3t" } } ∧
    ((restoreCredential [("cid1", "s3cr3t")] w4Cred).oauth2.bind
        fun o' => o'.client_secret) = some "s3cr3t" ∧
    some "s3cr3t" ≠ some REDACTED ∧
    runProtocol [("cid1", "s3cr3t")] w4Cred (checkingExchanger "s3cr3t" w4Ret)
        = (none, reredact w4Ret) :=
  restore_supplies_plaintext_and_protocol_succeeds
    [("cid1", "s3cr3t")] w4Cred w4OAuth "cid1" "s3cr3t" w4Ret
    rfl rfl rfl (by decide)

/-- C8: when the Secret Vault has no entry for the credential's client id
(or the client id is absent), the restore step is a no-op — the credential
proceeds with whatever secret it already has — no error is raised, and the
protocol runs the operation on the untouched credential. -/
theorem vault_miss_restore_noop (v : Vault) (cred : AuthCredential)
    (op : AuthCredential → Option String × AuthCredential)
    (h : ∀ o, cred.oauth2 = some o → ∀ cid, o.client_id = some cid →
      v.get cid = none) :
    restoreCredential v cred = cred ∧
    runProtocol v cred op = ((op cred).1, reredact (op cred).2) := by
  have hr : restoreCredential v cred = cred := by
    cases hc : cred.oauth2 with
    | none => simp [restoreCredential, hc]
    | some o =>
      cases hcid : o.client_id with
      | none => simp [restoreCredential, hc, hcid]
      | some cid => simp [restoreCredential, hc, hcid, h o hc cid hcid]
  exact ⟨hr, by simp [runProtocol, hr]⟩

/-- Concrete input of the vault-miss theorem: a credential whose client id
has no entry in the (empty) vault. -/
def w8Cred : AuthCredential :=
  ⟨AuthCredentialTypes.oauth2,
    some ⟨some "unknown_cid", none, none, none, none, none, none, none⟩⟩

/-- Witness for C8 at a concrete credential, empty vault and a concrete
operation. -/
theorem vault_miss_restore_noop_witness :
    restoreCredential [] w8Cred = w8Cred ∧
    runProtocol [] w8Cred (checkingExchanger "x" w4Ret)
        = ((checkingExchanger "x" w4Ret w8Cred).1,
            reredact (checkingExchanger "x" w4Ret w8Cred).2) :=
  vault_miss_restore_noop [] w8Cred (checkingExchanger "x" w4Ret)
    (fun _ _ _ _ => rfl)

/-- C9: ingesting an OAuth2 credential with a real secret but an absent
client id raises no error (ingestion is total), stores nothing in the
vault, and still redacts the secret in the internal copy; ingesting a
credential whose secret already equals the redaction marker is a no-op on
both the vault and the credential. -/
theorem ingest_absent_cid_safe_and_marker_idempotent
    (v : Vault) (c : AuthCredential) (o : OAuth2Auth) (s : String) :
    (c.auth_type = AuthCredentialTypes.oauth2 → c.oauth2 = some o →
      o.client_id = none → o.client_secret = some s → s ≠ "" → s ≠ REDACTED →
      ingestCredential v c
        = (v, { c with oauth2 := some { o with client_secret := some REDACTED } })) ∧
    (c.oauth2 = some o → o.client_secret = some REDACTED →
      ingestCredential v c = (v, c)) := by
  constructor
  · intro ht ho hcid hsec h1 h2
    simp [ingestCredential, ht, ho, hcid, hsec, h1, h2]
  · intro ho hsec
    by_cases ht : c.auth_type = AuthCredentialTypes.oauth2
    · simp [ingestCredential, ht, ho, hsec]
    · simp [ingestCredential, ht]

/-- Concrete inputs of the ingestion-edge-case theorem: a credential with
a real secret but no client id, and a credential whose secret is already
the marker. -/
def w9aOAuth : OAuth2Auth :=
  ⟨none, some "topsecret", none, none, none, none, none, none⟩

def w9aCred : AuthCredential := ⟨AuthCredentialTypes.oauth2, some w9aOAuth⟩

def w9bOAuth : OAuth2Auth :=
  ⟨some "cid9", some REDACTED, none, none, none, none, none, none⟩

def w9bCred : AuthCredential := ⟨AuthCredentialTypes.oauth2, some w9bOAuth⟩

/-- Witness for C9 at the two concrete edge-case credentials. -/
theorem ingest_absent_cid_safe_and_marker_idempotent_witness :
    ingestCredential [] w9aCred
      = ([], { w9aCred with
          oauth2 := some { w9aOAuth with client_secret := some REDACTED } }) ∧
    ingestCredential [] w9bCred = ([], w9bCred) :=
  ⟨(ingest_absent_cid_safe_and_marker_idempotent [] w9aCred w9aOAuth
      "topsecret").1 rfl rfl rfl rfl (by decide) (by decide),
   (ingest_absent_cid_safe_and_marker_idempotent [] w9bCred w9bOAuth
      "").2 rfl rfl⟩

theorem Vault.get_put_same (v : Vault) (cid s : String) :
    (v.put cid s).get cid = some s := by
  simp [Vault.put, Vault.get, List.find?]

theorem Vault.get_put_ne (v : Vault) (cid cid' s : String) (h : cid' ≠ cid) :
    (v.put cid s).get cid' = v.get cid' := by
  have hb : (cid == cid') = false := beq_eq_false_iff_ne.mpr (Ne.symm h)
  simp [Vault.put, Vault.get, List.find?, hb]

theorem ingestCredential_fst (v : Vault) (c : AuthCredential) :
    (ingestCredential v c).1
      = (match ingestEntry c with
          | some p => v.put p.1 p.2
          | none => v) := by
  rcases c with ⟨t, oo⟩
  by_cases ht : t = AuthCredentialTypes.oauth2
  · subst ht
    cases oo with
    | none => rfl
    | some o =>
      rcases o with ⟨cid, cs, f3, f4, f5, f6, f7, f8⟩
      cases cs with
      | none => rfl
      | some s =>
        by_cases hg : s ≠ "" ∧ s ≠ REDACTED
        · cases cid <;> simp [ingestCredential, ingestEntry, hg]
        · simp [ingestCredential, ingestEntry, hg]
  · simp [ingestCredential, ingestEntry, ht]

theorem ingestCredential_snd_real (v : Vault) (c : AuthCredential)
    (o : OAuth2Auth) (s : String)
    (ht : c.auth_type = AuthCredentialTypes.oauth2) (ho : c.oauth2 = some o)
    (hs : o.client_secret = some s) (h1 : s ≠ "") (h2 : s ≠ REDACTED) :
    (ingestCredential v c).2
      = { c with oauth2 := some { o with client_secret := some REDACTED } } := by
  cases hcid : o.client_id <;>
    simp [ingestCredential, ht, ho, hs, h1, h2, hcid]

theorem ingestEntry_real (c : AuthCredential) (o : OAuth2Auth) (s cid : String)
    (ht : c.auth_type = AuthCredentialTypes.oauth2) (ho : c.oauth2 = some o)
    (hs : o.client_secret = some s) (h1 : s ≠ "") (h2 : s ≠ REDACTED)
    (hcid : o.client_id = some cid) :
    ingestEntry c = some (cid, s) := by
  simp [ingestEntry, ht, ho, hs, h1, h2, hcid]

theorem construct_vault_eq (v : Vault) (cfg : AuthConfig) :
    (CredentialManager.construct v cfg).CLIENT_SECRETS
      = (match (cfg.exchanged_auth_credential.bind ingestEntry) with
          | some p =>
            (match (cfg.raw_auth_credential.bind ingestEntry) with
              | some q => v.put q.1 q.2
              | none => v).put p.1 p.2
          | none =>
            match (cfg.raw_auth_credential.bind ingestEntry) with
            | some q => v.put q.1 q.2
            | none => v) := by
  unfold CredentialManager.construct
  cases hr : cfg.raw_auth_credential with
  | none =>
    cases he : cfg.exchanged_auth_credential with
    | none => simp [ingestOpt]
    | some ce => simp [ingestOpt, ingestCredential_fst]
  | some cr =>
    cases he : cfg.exchanged_auth_credential with
    | none => simp [ingestOpt, ingestCredential_fst]
    | some ce => simp [ingestOpt, ingestCredential_fst]

/-- C3 (amended): constructing a Credential Manager from an `AuthConfig`
whose raw or exchanged credential is of OAuth2 kind with a non-empty,
non-marker secret leaves that credential's secret in the retained copy
equal to the redaction marker, and the Secret Vault maps the credential's
client id to its original plaintext secret — for the raw credential under
the proviso that the exchanged slot does not ingest a different secret
under the same client id (the exchanged slot is ingested last and its
entry overwrites); for the exchanged credential unconditionally. -/
theorem construct_redacts_and_stores_secret (v : Vault) (cfg : AuthConfig) :
    (∀ c o s cid, cfg.raw_auth_credential = some c →
      c.auth_type = AuthCredentialTypes.oauth2 → c.oauth2 = some o →
      o.client_secret = some s → s ≠ "" → s ≠ REDACTED →
      o.client_id = some cid →
      ((CredentialManager.construct v cfg).auth_config.raw_auth_credential.bind
          fun c' => c'.oauth2.bind fun o' => o'.client_secret) = some REDACTED ∧
      ((∀ p, cfg.exchanged_auth_credential.bind ingestEntry = some p →
          p.1 = cid → p.2 = s) →
        (CredentialManager.construct v cfg).CLIENT_SECRETS.get cid = some s)) ∧
    (∀ c o s cid, cfg.exchanged_auth_credential = some c →
      c.auth_type = AuthCredentialTypes.oauth2 → c.oauth2 = some o →
      o.client_secret = some s → s ≠ "" → s ≠ REDACTED →
      o.client_id = some cid →
      ((CredentialManager.construct v cfg).auth_config.exchanged_auth_credential.bind
          fun c' => c'.oauth2.bind fun o' => o'.client_secret) = some REDACTED ∧
      (CredentialManager.construct v cfg).CLIENT_SECRETS.get cid = some s) := by
  constructor
  · intro c o s cid hr ht ho hs h1 h2 hcid
    constructor
    · unfold CredentialManager.construct
      simp [hr, ingestOpt, ingestCredential_snd_real v c o s ht ho hs h1 h2]
    · intro hside
      rw [construct_vault_eq]
      rw [hr]
      simp only [Option.some_bind]
      rw [ingestEntry_real c o s cid ht ho hs h1 h2 hcid]
      cases he : cfg.exchanged_auth_credential.bind ingestEntry with
      | none => simp [Vault.get_put_same]
      | some p =>
        by_cases hp : p.1 = cid
        · have hps : p.2 = s := hside p he hp
          simp only []
          rw [hp, hps]
          simp [Vault.get_put_same]
        · simp only []
          rw [Vault.get_put_ne _ p.1 cid p.2 (fun hh => hp hh.symm)]
          simp [Vault.get_put_same]
  · intro c o s cid he ht ho hs h1 h2 hcid
    constructor
    · unfold CredentialManager.construct
      simp [he, ingestOpt,
        ingestCredential_snd_real _ c o s ht ho hs h1 h2]
    · rw [construct_vault_eq]
      rw [he]
      simp only [Option.some_bind]
      rw [ingestEntry_real c o s cid ht ho hs h1 h2 hcid]
      simp [Vault.get_put_same]

/-- Concrete input of the ingestion theorem's witness: a config whose raw
credential carries a real secret and whose exchanged slot is empty. -/
def w3OAuth : OAuth2Auth :=
  ⟨some "cid3", some "tops3cret", none, none, none, none, none, none⟩

def w3Cred : AuthCredential := ⟨AuthCredentialTypes.oauth2, some w3OAuth⟩

def w3Scheme : AuthScheme :=
  ⟨"oauth2",
    ⟨none, none, none,
      some ⟨some "https://example.com/auth", some "https://example.com/token", []⟩⟩⟩

def w3Cfg : AuthConfig := ⟨w3Scheme, some w3Cred, none⟩

/-- Witness for C3 (amended) at a concrete config with a real secret. -/
theorem construct_redacts_and_stores_secret_witness :
    ((CredentialManager.construct [] w3Cfg).auth_config.raw_auth_credential.bind
        fun c' => c'.oauth2.bind fun o' => o'.client_secret) = some REDACTED ∧
    (CredentialManager.construct [] w3Cfg).CLIENT_SECRETS.get "cid3"
      = some "tops3cret" := by
  have h := (construct_redacts_and_stores_secret [] w3Cfg).1 w3Cred w3OAuth
    "tops3cret" "cid3" rfl rfl rfl rfl (by decide) (by decide) rfl
  exact ⟨h.1, h.2 (fun p hp _ => by simp [w3Cfg] at hp)⟩

/-- A config in which the raw and exchanged credentials carry different
real secrets under the same client id: the counterexample to the
unconditional reading of the vault-content claim. -/
def cexRawO : OAuth2Auth :=
  ⟨some "cidx", some "secret_a", none, none, none, none, none, none⟩

def cexExchO : OAuth2Auth :=
  ⟨some "cidx", some "secret_b", none, none, none, none, none, none⟩

def cexRawCred : AuthCredential := ⟨AuthCredentialTypes.oauth2, some cexRawO⟩

def cexExchCred : AuthCredential := ⟨AuthCredentialTypes.oauth2, some cexExchO⟩

def cexCfg : AuthConfig := ⟨w3Scheme, some cexRawCred, some cexExchCred⟩

/-- C3 counterexample: the raw credential of `cexCfg` satisfies every
antecedent of the claim (OAuth2 kind, non-empty non-marker secret
`"secret_a"`, client id `"cidx"`), yet after construction the Secret
Vault maps `"cidx"` to the exchanged credential's secret `"secret_b"`,
not the raw credential's original plaintext secret. -/
theorem construct_vault_claim_counterexample :
    cexCfg.raw_auth_credential = some cexRawCred ∧
    cexRawCred.auth_type = AuthCredentialTypes.oauth2 ∧
    cexRawCred.oauth2 = some cexRawO ∧
    cexRawO.client_secret = some "secret_a" ∧
    "secret_a" ≠ "" ∧ "secret_a" ≠ REDACTED ∧
    cexRawO.client_id = some "cidx" ∧
    (CredentialManager.construct [] cexCfg).CLIENT_SECRETS.get "cidx"
      = some "secret_b" ∧
    some "secret_b" ≠ some "secret_a" := by
  decide

theorem copyAndIngest_preserves_reads (v : Vault) (h : Heap) (r? : Option Nat)
    (r : Nat) (hr : r < h.next) :
    (copyAndIngest v h r?).2.1.read r = h.read r ∧
    h.next ≤ (copyAndIngest v h r?).2.1.next := by
  cases r? with
  | none => exact ⟨rfl, Nat.le_refl _⟩
  | some r0 =>
    cases hc : h.read r0 with
    | none => simp [copyAndIngest, hc]
    | some c =>
      have hne : (h.next == r) = false :=
        beq_eq_false_iff_ne.mpr (Nat.ne_of_gt hr)
      constructor
      · simp only [copyAndIngest, hc]
        simp [Heap.read, Heap.write, Heap.alloc, List.find?, hne]
      · simp only [copyAndIngest, hc]
        simp [Heap.write, Heap.alloc]

/-- C5: the caller's original `AuthConfig` — every credential object it
references on the heap — is unchanged by constructing a Credential
Manager from it; all sanitizing mutations are written only to the
manager's freshly-allocated deep copy. -/
theorem construct_preserves_caller_objects (v : Vault) (h : Heap)
    (cfg : RefConfig) (r : Nat) (hr : r < h.next) :
    ((constructManagerRef v h cfg).2.1).read r = h.read r := by
  have h1 := copyAndIngest_preserves_reads v h cfg.raw_ref r hr
  have h2 := copyAndIngest_preserves_reads (copyAndIngest v h cfg.raw_ref).1
    (copyAndIngest v h cfg.raw_ref).2.1 cfg.exch_ref r
    (Nat.lt_of_lt_of_le hr h1.2)
  show (copyAndIngest (copyAndIngest v h cfg.raw_ref).1
      (copyAndIngest v h cfg.raw_ref).2.1 cfg.exch_ref).2.1.read r = h.read r
  rw [h2.1, h1.1]

/-- Concrete input for the deep-copy isolation witness: a heap holding one
credential object with a real secret, referenced by the caller's config. -/
def w5Cred : AuthCredential :=
  ⟨AuthCredentialTypes.oauth2,
    some ⟨some "cid5", some "plaintext5", none, none, none, none, none, none⟩⟩

def w5Heap : Heap := ⟨[(0, w5Cred)], 1⟩

def w5Cfg : RefConfig := ⟨some 0, none⟩

/-- Witness for C5: after construction at the concrete heap, the caller's
cell still holds the original credential, plaintext secret included. -/
theorem construct_preserves_caller_objects_witness :
    0 < w5Heap.next ∧
    ((constructManagerRef [] w5Heap w5Cfg).2.1).read 0 = w5Heap.read 0 :=
  ⟨by decide, construct_preserves_caller_objects [] w5Heap w5Cfg 0 (by decide)⟩

/-- C6: generating an authorization URI for a config whose raw credential
carries a redacted secret and whose client id has a Secret Vault entry
invokes the external OAuth2 session primitive with the restored plaintext
secret, together with the client id, the scheme's scopes and the
credential's redirect_uri; the produced URI is exactly the primitive's
output (so it contains no secret the primitive's output does not), and
the returned credential carries the redaction marker, never the real
secret. -/
theorem generate_auth_uri_uses_restored_secret (v : Vault)
    (cfg : AuthConfig) (cred : AuthCredential) (o : OAuth2Auth)
    (cid s : String) (session : SessionCall → String × String)
    (hraw : cfg.raw_auth_credential = some cred) (ho : cred.oauth2 = some o)
    (_hsec : o.client_secret = some REDACTED) (hcid : o.client_id = some cid)
    (hv : v.get cid = some s) :
    authUriSessionCall v cfg
      = some ⟨some cid, some s, scopeString cfg.auth_scheme.flows,
          o.redirect_uri⟩ ∧
    (generateAuthUri session v cfg).map Prod.fst
      = some (session ⟨some cid, some s, scopeString cfg.auth_scheme.flows,
          o.redirect_uri⟩).1 ∧
    Option.all (fun r => secretRedacted r.2) (generateAuthUri session v cfg)
      = true ∧
    (strContains (session ⟨some cid, some s,
        scopeString cfg.auth_scheme.flows, o.redirect_uri⟩).1 s = false →
      Option.all (fun r => !(strContains r.1 s)) (generateAuthUri session v cfg)
        = true) := by
  have hrest : restoreCredential v cred
      = { cred with oauth2 := some { o with client_secret := some s } } := by
    simp [restoreCredential, ho, hcid, hv]
  refine ⟨?_, ?_, ?_, ?_⟩
  · simp [authUriSessionCall, hraw, hrest, hcid]
  · simp [generateAuthUri, hraw, hrest, hcid]
  · simp [generateAuthUri, hraw, hrest, Option.all, secretRedacted_reredact]
  · intro hclean
    simp [generateAuthUri, hraw, hrest, hcid, Option.all, hclean]

/-- Concrete input for the auth-URI witness: a scheme whose authorization
code flow carries one scope, a vault entry for the client id, a redacted
raw credential, and a session primitive returning a fixed URI. -/
def w6OAuth : OAuth2Auth :=
  ⟨some "cid6", some REDACTED, none, none, some "http://localhost/callback",
    none, none, none⟩

def w6Cred : AuthCredential := ⟨AuthCredentialTypes.oauth2, some w6OAuth⟩

def w6Scheme : AuthScheme :=
  ⟨"oauth2", ⟨none, none, none,
    some ⟨some "http://auth", none, [("scope", "desc")]⟩⟩⟩

def w6Cfg : AuthConfig := ⟨w6Scheme, some w6Cred, none⟩

def w6Session (_ : SessionCall) : String × String := ("http://auth?p=1", "st")

/-- Witness for C6 at the concrete config, vault and session primitive. -/
theorem generate_auth_uri_uses_restored_secret_witness :
    authUriSessionCall [("cid6", "super_secret_value")] w6Cfg
      = some ⟨some "cid6", some "super_secret_value",
          scopeString w6Cfg.auth_scheme.flows, w6OAuth.redirect_uri⟩ ∧
    (generateAuthUri w6Session [("cid6", "super_secret_value")] w6Cfg).map
        Prod.fst
      = some (w6Session ⟨some "cid6", some "super_secret_value",
          scopeString w6Cfg.auth_scheme.flows, w6OAuth.redirect_uri⟩).1 ∧
    Option.all (fun r => secretRedacted r.2)
        (generateAuthUri w6Session [("cid6", "super_secret_value")] w6Cfg)
      = true ∧
    (strContains (w6Session ⟨some "cid6", some "super_secret_value",
        scopeString w6Cfg.auth_scheme.flows, w6OAuth.redirect_uri⟩).1
        "super_secret_value" = false →
      Option.all (fun r => !(strContains r.1 "super_secret_value"))
          (generateAuthUri w6Session [("cid6", "super_secret_value")] w6Cfg)
        = true) :=
  generate_auth_uri_uses_restored_secret [("cid6", "super_secret_value")]
    w6Cfg w6Cred w6OAuth "cid6" "super_secret_value" w6Session
    rfl rfl rfl rfl rfl

end AdkAuth

namespace AdkCli

theorem processAgent_fst (b : String → Except String String) (cf : Bool)
    (wf : String → String → Option String)
    (acc : List String × List String) (n : String) :
    (processAgent b cf wf acc n).1
      = acc.1 ++ ((b n).toOption.map (fun c => [c])).getD [] := by
  cases hb : b n with
  | error e => simp [processAgent, hb, Except.toOption]
  | ok card =>
    cases cf with
    | false => simp [processAgent, hb, Except.toOption]
    | true =>
      cases hw : wf n card <;> simp [processAgent, hb, hw, Except.toOption]

theorem foldl_processAgent_fst (b : String → Except String String) (cf : Bool)
    (wf : String → String → Option String) (names : List String)
    (acc : List String × List String) :
    (names.foldl (processAgent b cf wf) acc).1
      = acc.1 ++ names.filterMap (fun n => (b n).toOption) := by
  induction names generalizing acc with
  | nil => simp
  | cons n t ih =>
    rw [List.foldl_cons, ih]
    rw [processAgent_fst]
    cases hb : b n with
    | error e => simp [hb, Except.toOption, List.filterMap_cons]
    | ok card => simp [hb, Except.toOption, List.filterMap_cons]

theorem processAgent_errs_mono (b : String → Except String String) (cf : Bool)
    (wf : String → String → Option String)
    (acc : List String × List String) (n : String) (x : String)
    (hx : x ∈ acc.2) : x ∈ (processAgent b cf wf acc n).2 := by
  cases hb : b n with
  | error e => simp [processAgent, hb]; exact Or.inl hx
  | ok card =>
    cases cf with
    | false => simpa [processAgent, hb] using hx
    | true =>
      cases hw : wf n card
      · simpa [processAgent, hb, hw] using hx
      · simp [processAgent, hb, hw]; exact Or.inl hx

theorem foldl_processAgent_errs_mono (b : String → Except String String)
    (cf : Bool) (wf : String → String → Option String) (names : List String)
    (acc : List String × List String) (x : String) (hx : x ∈ acc.2) :
    x ∈ (names.foldl (processAgent b cf wf) acc).2 := by
  induction names generalizing acc with
  | nil => simpa using hx
  | cons n t ih =>
    rw [List.foldl_cons]
    exact ih _ (processAgent_errs_mono b cf wf acc n x hx)

theorem foldl_processAgent_errs (b : String → Except String String)
    (cf : Bool) (wf : String → String → Option String) (names : List String)
    (acc : List String × List String) (n : String) (e : String)
    (hn : n ∈ names) (hb : b n = Except.error e) :
    errLine n e ∈ (names.foldl (processAgent b cf wf) acc).2 := by
  induction names generalizing acc with
  | nil => cases hn
  | cons m t ih =>
    rw [List.foldl_cons]
    rcases List.mem_cons.mp hn with hm | ht
    · subst hm
      apply foldl_processAgent_errs_mono
      simp [processAgent, hb]
    · exact ih _ ht

/-- C10: in the `generate_agent_card` CLI, for every list of discovered
agent names, an exception raised while loading or building the card for
one agent is caught, reported on stderr, and does not stop the processing
of the remaining agents: stdout is exactly one JSON array holding the
card dicts of the agents that succeeded, in discovery order, and every
failing agent's error line appears on stderr. -/
theorem generate_agent_card_output (b : String → Except String String)
    (cf : Bool) (wf : String → String → Option String)
    (names : List String) :
    (generateAgentCardAsync b cf wf names).1
      = jsonArray (names.filterMap fun n => (b n).toOption) ∧
    ∀ n e, n ∈ names → b n = Except.error e →
      errLine n e ∈ (generateAgentCardAsync b cf wf names).2 := by
  constructor
  · show jsonArray (names.foldl (processAgent b cf wf) ([], [])).1 = _
    rw [foldl_processAgent_fst]
    simp
  · intro n e hn hb
    exact foldl_processAgent_errs b cf wf names ([], []) n e hn hb

/-- Concrete input of the CLI witness, mirroring
`test_generate_agent_card_agent_error`: `agent1` fails to load, `agent2`
builds a card. -/
def w10Build (n : String) : Except String String :=
  if n == "agent1" then Except.error "Load error" else Except.ok "card2"

/-- Witness for C10 at the two-agent input with one failing agent. -/
theorem generate_agent_card_output_witness :
    (generateAgentCardAsync w10Build false (fun _ _ => none)
        ["agent1", "agent2"]).1
      = jsonArray (["agent1", "agent2"].filterMap fun n => (w10Build n).toOption) ∧
    errLine "agent1" "Load error"
      ∈ (generateAgentCardAsync w10Build false (fun _ _ => none)
          ["agent1", "agent2"]).2 :=
  ⟨(generate_agent_card_output w10Build false (fun _ _ => none)
      ["agent1", "agent2"]).1,
   (generate_agent_card_output w10Build false (fun _ _ => none)
      ["agent1", "agent2"]).2 "agent1" "Load error" (by decide) rfl⟩

end AdkCli
